import Mathlib

/-! Verification development for the trident-syscall-stubs-v2 repository.
    Shallow embedding of `src/builtin_function.rs` (the invocation trampoline
    `invoke_builtin_function`) and `src/syscall_stubs.rs` (the syscall
    capability table: `sol_invoke_signed`, `sol_get_return_data`,
    `sol_set_return_data`, and the error translation `convert_error`).
    Machine integers are modelled as `Nat` (no arithmetic in the claims
    approaches word width), byte buffers as `List Nat`, and account keys
    (`Pubkey`) as `Nat`.  The ledger runtime (solana transaction context with
    its borrow-checked, mutation-gated accounts) is an external collaborator;
    its guard verdicts are abstracted as parameters (`MutationGuards`), with a
    concrete instance modelled from the spec for witnesses. -/

namespace Trident

abbrev Pubkey := Nat

/-- Flat-side account view: the `AccountInfo` reconstructed by `deserialize`
over the serialized parameter buffer.  Plain directly-mutable fields, no
enforcement (spec section 3, "Account Record", flat-buffer side). -/
structure FlatAccount where
  key : Pubkey
  lamports : Nat
  data : List Nat
  owner : Pubkey
deriving DecidableEq, Repr

/-- Ledger-side account slot content: one transaction-level account as held by
the runtime's transaction context (key, lamports, data, owner). -/
structure LedgerAccount where
  key : Pubkey
  lamports : Nat
  data : List Nat
  owner : Pubkey
deriving DecidableEq, Repr

/-- One instruction-account entry of the current instruction context: the
index of the transaction-level slot it refers to, and the instruction-level
`is_writable` flag returned by `BorrowedAccount::is_writable`. -/
structure InstrAccountRef where
  indexInTransaction : Nat
  isWritable : Bool
deriving DecidableEq, Repr

/-- The runtime's internal instruction-error enumeration
(`solana_sdk::instruction::InstructionError`), exactly the variants matched by
`convert_error` in `src/syscall_stubs.rs` lines 247-367.  `Custom` carries the
caller-defined numeric code, `BorshIoError` carries a string payload. -/
inductive InstructionError where
  | GenericError
  | InvalidArgument
  | InvalidInstructionData
  | InvalidAccountData
  | AccountDataTooSmall
  | InsufficientFunds
  | IncorrectProgramId
  | MissingRequiredSignature
  | AccountAlreadyInitialized
  | UninitializedAccount
  | UnbalancedInstruction
  | ModifiedProgramId
  | ExternalAccountLamportSpend
  | ExternalAccountDataModified
  | ReadonlyLamportChange
  | ReadonlyDataModified
  | DuplicateAccountIndex
  | ExecutableModified
  | RentEpochModified
  | NotEnoughAccountKeys
  | AccountDataSizeChanged
  | AccountNotExecutable
  | AccountBorrowFailed
  | AccountBorrowOutstanding
  | DuplicateAccountOutOfSync
  | Custom (code : Nat)
  | InvalidError
  | ExecutableDataModified
  | ExecutableLamportChange
  | ExecutableAccountNotRentExempt
  | UnsupportedProgramId
  | CallDepth
  | MissingAccount
  | ReentrancyNotAllowed
  | MaxSeedLengthExceeded
  | InvalidSeeds
  | InvalidRealloc
  | ComputationalBudgetExceeded
  | PrivilegeEscalation
  | ProgramEnvironmentSetupFailure
  | ProgramFailedToComplete
  | ProgramFailedToCompile
  | Immutable
  | IncorrectAuthority
  | BorshIoError (msg : String)
  | AccountNotRentExempt
  | InvalidAccountOwner
  | ArithmeticOverflow
  | UnsupportedSysvar
  | IllegalOwner
  | MaxAccountsDataAllocationsExceeded
  | MaxAccountsExceeded
  | MaxInstructionTraceLengthExceeded
  | BuiltinProgramsMustConsumeComputeUnits
deriving Repr

/-- The program-facing error enumeration
(`solana_sdk::program_error::ProgramError`), restricted to the variants
produced by `convert_error`. -/
inductive ProgramError where
  | InvalidArgument
  | InvalidInstructionData
  | InvalidAccountData
  | AccountDataTooSmall
  | InsufficientFunds
  | IncorrectProgramId
  | MissingRequiredSignature
  | AccountAlreadyInitialized
  | UninitializedAccount
  | NotEnoughAccountKeys
  | AccountBorrowFailed
  | Custom (code : Nat)
  | MaxSeedLengthExceeded
  | InvalidSeeds
  | InvalidRealloc
  | BorshIoError (msg : String)
  | AccountNotRentExempt
  | InvalidAccountOwner
  | ArithmeticOverflow
  | UnsupportedSysvar
  | IllegalOwner
  | MaxAccountsDataAllocationsExceeded
  | MaxInstructionTraceLengthExceeded
  | BuiltinProgramsMustConsumeComputeUnits
deriving Repr

/-- Error-taxonomy translation, `convert_error` of `src/syscall_stubs.rs`
lines 247-367: `Ok p` is a program-facing translation, `Err e` is the
"not translatable, propagate as internal error" outcome. -/
def convert_error : InstructionError → Except InstructionError ProgramError
  | .GenericError => .error .GenericError
  | .InvalidArgument => .ok .InvalidArgument
  | .InvalidInstructionData => .ok .InvalidInstructionData
  | .InvalidAccountData => .ok .InvalidAccountData
  | .AccountDataTooSmall => .ok .AccountDataTooSmall
  | .InsufficientFunds => .ok .InsufficientFunds
  | .IncorrectProgramId => .ok .IncorrectProgramId
  | .MissingRequiredSignature => .ok .MissingRequiredSignature
  | .AccountAlreadyInitialized => .ok .AccountAlreadyInitialized
  | .UninitializedAccount => .ok .UninitializedAccount
  | .UnbalancedInstruction => .error .UnbalancedInstruction
  | .ModifiedProgramId => .error .ModifiedProgramId
  | .ExternalAccountLamportSpend => .error .ExecutableLamportChange
  | .ExternalAccountDataModified => .error .ExternalAccountDataModified
  | .ReadonlyLamportChange => .error .ReadonlyLamportChange
  | .ReadonlyDataModified => .error .ReadonlyDataModified
  | .DuplicateAccountIndex => .error .DuplicateAccountIndex
  | .ExecutableModified => .error .ExecutableModified
  | .RentEpochModified => .error .RentEpochModified
  | .NotEnoughAccountKeys => .ok .NotEnoughAccountKeys
  | .AccountDataSizeChanged => .error .AccountDataSizeChanged
  | .AccountNotExecutable => .error .AccountNotExecutable
  | .AccountBorrowFailed => .ok .AccountBorrowFailed
  | .AccountBorrowOutstanding => .error .AccountBorrowOutstanding
  | .DuplicateAccountOutOfSync => .error .DuplicateAccountOutOfSync
  | .Custom num => .ok (.Custom num)
  | .InvalidError => .error .InvalidError
  | .ExecutableDataModified => .error .ExecutableDataModified
  | .ExecutableLamportChange => .error .ExecutableLamportChange
  | .ExecutableAccountNotRentExempt => .error .ExecutableAccountNotRentExempt
  | .UnsupportedProgramId => .error .UnsupportedProgramId
  | .CallDepth => .error .CallDepth
  | .MissingAccount => .error .MissingAccount
  | .ReentrancyNotAllowed => .error .ReentrancyNotAllowed
  | .MaxSeedLengthExceeded => .ok .MaxSeedLengthExceeded
  | .InvalidSeeds => .ok .InvalidSeeds
  | .InvalidRealloc => .ok .InvalidRealloc
  | .ComputationalBudgetExceeded => .error .ComputationalBudgetExceeded
  | .PrivilegeEscalation => .error .PrivilegeEscalation
  | .ProgramEnvironmentSetupFailure => .error .ProgramEnvironmentSetupFailure
  | .ProgramFailedToComplete => .error .ProgramFailedToComplete
  | .ProgramFailedToCompile => .error .ProgramFailedToCompile
  | .Immutable => .error .Immutable
  | .IncorrectAuthority => .error .IncorrectAuthority
  | .BorshIoError x => .ok (.BorshIoError x)
  | .AccountNotRentExempt => .ok .AccountNotRentExempt
  | .InvalidAccountOwner => .ok .InvalidAccountOwner
  | .ArithmeticOverflow => .ok .ArithmeticOverflow
  | .UnsupportedSysvar => .ok .UnsupportedSysvar
  | .IllegalOwner => .ok .IllegalOwner
  | .MaxAccountsDataAllocationsExceeded => .ok .MaxAccountsDataAllocationsExceeded
  | .MaxAccountsExceeded => .error .MaxAccountsExceeded
  | .MaxInstructionTraceLengthExceeded => .ok .MaxInstructionTraceLengthExceeded
  | .BuiltinProgramsMustConsumeComputeUnits => .ok .BuiltinProgramsMustConsumeComputeUnits

/-- Verdicts of the ledger runtime's borrow-checked account API (external
collaborator, spec sections 1 and 3: accounts are "borrow-checked,
mutation-gated (writability, ownership, data-resize permission)").  Each field
gives the outcome of one call on a borrowed account: the first argument is the
borrowed account's instruction-level `is_writable` flag, `none` means the call
is permitted and `some e` is the denial it raises.  The current program id and
any further invocation-fixed inputs are captured inside the functions. -/
structure MutationGuards where
  setLamports : Bool → LedgerAccount → Nat → Option InstructionError
  canDataBeResized : Bool → LedgerAccount → Nat → Option InstructionError
  canDataBeChanged : Bool → LedgerAccount → Option InstructionError
  setOwner : Bool → LedgerAccount → Pubkey → Option InstructionError

/-- Modelled from the spec: a concrete instance of the ledger runtime's
mutation guards (the guard code lives in the external solana transaction
context, not in `src/`), following the spec's description of the gates as
writability, ownership and data-resize permission.  `pid` is the current
program id, `maxLen` the data-resize headroom limit. -/
def specGuards (pid : Pubkey) (maxLen : Nat) : MutationGuards where
  setLamports := fun w a newLamports =>
    if a.owner ≠ pid ∧ newLamports < a.lamports then
      some .ExternalAccountLamportSpend
    else if ¬ w then some .ReadonlyLamportChange
    else none
  canDataBeResized := fun _ a newLen =>
    if newLen = a.data.length then none
    else if a.owner ≠ pid then some .AccountDataSizeChanged
    else if maxLen < newLen then some .InvalidRealloc
    else none
  canDataBeChanged := fun w a =>
    if ¬ w then some .ReadonlyDataModified
    else if a.owner ≠ pid then some .ExternalAccountDataModified
    else none
  setOwner := fun w a _ =>
    if ¬ w ∨ a.owner ≠ pid ∨ a.data.any (· ≠ 0) then some .ModifiedProgramId
    else none

/-- The combined data-mutation guard of `src/builtin_function.rs` lines
138-142: `can_data_be_resized(new_len).is_ok() && can_data_be_changed().is_ok()`. -/
def dataGuardPass (g : MutationGuards) (w : Bool) (a : LedgerAccount)
    (newLen : Nat) : Bool :=
  (g.canDataBeResized w a newLen).isNone && (g.canDataBeChanged w a).isNone

/-- The account state after the lamports step of reconciliation: unchanged if
the lamports already agree, otherwise with the flat-side lamports installed. -/
def lamportsApplied (a : LedgerAccount) (info : FlatAccount) : LedgerAccount :=
  if a.lamports = info.lamports then a else { a with lamports := info.lamports }

/-- The `account_info_map` of `src/builtin_function.rs` line 121: a `HashMap`
built by inserting every flat-side view keyed by its account key, so looking
up a key returns the last view carrying it. -/
def account_info_map (infos : List FlatAccount) (k : Pubkey) :
    Option FlatAccount :=
  infos.reverse.find? (fun info => info.key = k)

/-- The `deduplicated_indices` of `src/builtin_function.rs` lines 87-88: the
instruction-account indices `0..n` collected into a `HashSet`.  Modelled as
`dedup` of `List.range n`; since the range already has no duplicates this is
the range itself (the set never merges two indices aliasing one slot).  The
`HashSet` iterates in an unspecified order; the loop is modelled in ascending
index order, and none of the properties proved here depend on that order. -/
def deduplicated_indices (n : Nat) : List Nat :=
  (List.range n).dedup

/-- For a list of processed instruction-account indices, the transaction-level
slots the reconciliation loop borrows and commits, one entry per processed
index (`try_borrow_instruction_account` at line 131 resolves each index to its
slot). -/
def processedSlots (refs : List InstrAccountRef) (idxs : List Nat) : List Nat :=
  idxs.filterMap (fun i => (refs.get? i).map (·.indexInTransaction))

/-- The lamports clause of reconciliation, `src/builtin_function.rs` lines
134-136: copy the flat-side lamports when they differ; a `set_lamports` denial
aborts with `?`, carrying the still-unchanged account. -/
def lamportsStep (g : MutationGuards) (w : Bool) (info : FlatAccount)
    (a : LedgerAccount) :
    Except (InstructionError × LedgerAccount) LedgerAccount :=
  if a.lamports = info.lamports then .ok a
  else
    match g.setLamports w a info.lamports with
    | some e => .error (e, a)
    | none => .ok { a with lamports := info.lamports }

/-- The data clause of reconciliation, `src/builtin_function.rs` lines
138-144: `set_data_from_slice` runs only when
`can_data_be_resized(..).is_ok() && can_data_be_changed().is_ok()`; it
re-checks exactly those guards, so it is modelled as the plain copy.  When the
combined guard denies, the clause is skipped silently. -/
def dataStep (g : MutationGuards) (w : Bool) (info : FlatAccount)
    (a1 : LedgerAccount) : LedgerAccount :=
  if dataGuardPass g w a1 info.data.length then { a1 with data := info.data }
  else a1

/-- The owner clause of reconciliation, `src/builtin_function.rs` lines
145-147: copy the flat-side owner when it differs; a `set_owner` denial aborts
with `?`, carrying the account as committed so far. -/
def ownerStep (g : MutationGuards) (w : Bool) (info : FlatAccount)
    (a2 : LedgerAccount) :
    Except (InstructionError × LedgerAccount) LedgerAccount :=
  if a2.owner = info.owner then .ok a2
  else
    match g.setOwner w a2 info.owner with
    | some e => .error (e, a2)
    | none => .ok { a2 with owner := info.owner }

/-- One iteration body of the commit loop, `src/builtin_function.rs` lines
132-149: if the borrowed account is writable and a flat-side view shares its
key, run the lamports, data and owner clauses in that fixed order.  An
`Except.error` carries the denial together with the partially committed
account, since the earlier field writes have already gone through the
borrow. -/
def commitAccount (g : MutationGuards) (fm : Pubkey → Option FlatAccount)
    (r : InstrAccountRef) (a : LedgerAccount) :
    Except (InstructionError × LedgerAccount) LedgerAccount :=
  if r.isWritable then
    match fm a.key with
    | none => .ok a
    | some info =>
      match lamportsStep g r.isWritable info a with
      | .error ep => .error ep
      | .ok a1 => ownerStep g r.isWritable info (dataStep g r.isWritable info a1)
  else .ok a

/-- The commit loop of `src/builtin_function.rs` lines 129-150: for each
processed index, borrow the instruction account (an invalid index fails the
borrow) and run `commitAccount` on its slot.  An error aborts the loop with
`?`, carrying the transaction accounts as mutated so far (the slots committed
before the failing one stay committed, spec section 4.3 failure semantics). -/
def commitLoop (g : MutationGuards) (fm : Pubkey → Option FlatAccount)
    (refs : List InstrAccountRef) :
    List Nat → List LedgerAccount →
    Except (InstructionError × List LedgerAccount) (List LedgerAccount)
  | [], tx => .ok tx
  | i :: rest, tx =>
    match refs.get? i with
    | none => .error (.NotEnoughAccountKeys, tx)
    | some r =>
      match tx.get? r.indexInTransaction with
      | none => .error (.MissingAccount, tx)
      | some a =>
        match commitAccount g fm r a with
        | .error (e, ap) => .error (e, tx.set r.indexInTransaction ap)
        | .ok a1 => commitLoop g fm refs rest (tx.set r.indexInTransaction a1)

/-- Outcome of running the program function under `catch_unwind`
(`src/builtin_function.rs` lines 99-101): a normal `Ok(())` return, a
program-reported failure carrying the raw `u64` error code of the returned
`ProgramError`, or an abrupt abort (panic). -/
inductive ProgOutcome where
  | success
  | failure (code : Nat)
  | panicked
deriving Repr

/-- Structured log entries emitted through `stable_log` by the trampoline. -/
inductive LogEntry where
  | programInvoke (pid : Pubkey) (stackHeight : Nat)
  | programFailure (pid : Pubkey)
  | programSuccess (pid : Pubkey)
deriving DecidableEq, Repr

/-- Errors returned by `invoke_builtin_function` (boxed `InstructionError`
values in the source).  `rawProgramError code` stands for
`InstructionError::from(u64::from(program_error))` at line 104, carrying the
raw program error code; the decoding of that code lives in the external sdk
and no claim depends on it. -/
inductive TrampolineError where
  | instrError (e : InstructionError)
  | rawProgramError (code : Nat)
deriving Repr

/-- The invocation-context state the trampoline reads and writes: the
compute-unit budget, the transaction-level accounts, the current instruction's
account references, the current program id and the stack height. -/
structure InvokeState where
  budget : Nat
  tx : List LedgerAccount
  refs : List InstrAccountRef
  programId : Pubkey
  stackHeight : Nat
deriving DecidableEq, Repr

/-- The invocation trampoline `invoke_builtin_function` of
`src/builtin_function.rs` lines 53-153.  `prog` is the outcome of the program
function run under the `catch_unwind` boundary and `postViews` is the
flat-side account state the program left in the parameter buffer at return
(the serialized views, arbitrarily mutated by the program).  Steps mirror the
source: `consume_checked(1)` (modelled from the spec: the external compute
budget is a monotonically decreasing counter that fails with
`ComputationalBudgetExceeded` when the charge exceeds the remainder), the
`program_invoke` log, the panic/failure handling with its `program_failure`
log, the `program_success` log, and the commit loop over the deduplicated
indices.  Returns the `Result<u64, _>` value, the emitted logs and the final
context state. -/
def invoke_builtin_function (g : MutationGuards) (prog : ProgOutcome)
    (postViews : List FlatAccount) (st : InvokeState) :
    Except TrampolineError Nat × List LogEntry × InvokeState :=
  if st.budget < 1 then
    (.error (.instrError .ComputationalBudgetExceeded), [], st)
  else
    let st1 : InvokeState := { st with budget := st.budget - 1 }
    let logs0 := [LogEntry.programInvoke st.programId st.stackHeight]
    match prog with
    | .panicked =>
      (.error (.instrError .ProgramFailedToComplete),
       logs0 ++ [.programFailure st.programId], st1)
    | .failure code =>
      (.error (.rawProgramError code),
       logs0 ++ [.programFailure st.programId], st1)
    | .success =>
      let logs1 := logs0 ++ [LogEntry.programSuccess st.programId]
      match commitLoop g (account_info_map postViews) st.refs
          (deduplicated_indices st.refs.length) st.tx with
      | .error (e, txp) =>
        (.error (.instrError e), logs1, { st1 with tx := txp })
      | .ok txf => (.ok 0, logs1, { st1 with tx := txf })

/-- Outcome of one `sol_invoke_signed` call: a unit success, a translated
program error, or a panic (the source's `unwrap`/`panic!` paths, which unwind
out of the syscall instead of returning). -/
inductive CpiOutcome where
  | ok
  | err (e : ProgramError)
  | panicked
deriving Repr

/-- One entry of the instruction-account list returned by
`prepare_instruction`: the transaction-level slot index, the index of the
account in the caller's instruction context, and the callee-side
`is_writable` flag. -/
structure CpiAccountMeta where
  indexInTransaction : Nat
  indexInCaller : Nat
  isWritable : Bool
deriving DecidableEq, Repr

/-- Outcomes of the external collaborators consulted by `sol_invoke_signed`:
the `create_program_address` result per signer-seed group (`none` is a
derivation failure), the `prepare_instruction` result, the
`process_instruction` result (`none` is success) and the transformation the
nested call applies to the transaction accounts on success. -/
structure CpiEnv where
  derives : List (Option Pubkey)
  prepareOutcome : Except InstructionError (List CpiAccountMeta)
  processResult : Option InstructionError
  processEffect : List LedgerAccount → List LedgerAccount

/-- The forward-copy lamports clause, `src/syscall_stubs.rs` lines 128-132:
copy the flat-side lamports when they differ; `set_lamports(..).unwrap()`
panics on a denial, leaving the account unchanged. -/
def cpiLamportsStep (g : MutationGuards) (w : Bool) (info : FlatAccount)
    (a : LedgerAccount) : Except LedgerAccount LedgerAccount :=
  if a.lamports = info.lamports then .ok a
  else
    match g.setLamports w a info.lamports with
    | some _ => .error a
    | none => .ok { a with lamports := info.lamports }

/-- The forward-copy data clause, `src/syscall_stubs.rs` lines 133-146:
`can_data_be_resized(..).and_then(can_data_be_changed)` permits the copy;
a denial with differing data is `panic!("{err:?}")`; a denial with agreeing
data is the silent no-op arm `_ => {}`. -/
def cpiDataStep (g : MutationGuards) (w : Bool) (info : FlatAccount)
    (a1 : LedgerAccount) : Except LedgerAccount LedgerAccount :=
  match (match g.canDataBeResized w a1 info.data.length with
         | some e => some e
         | none => g.canDataBeChanged w a1) with
  | none => .ok { a1 with data := info.data }
  | some _ => if a1.data = info.data then .ok a1 else .error a1

/-- The forward-copy owner clause, `src/syscall_stubs.rs` lines 147-152: copy
the flat-side owner when it differs; `set_owner(..).unwrap()` panics on a
denial. -/
def cpiOwnerStep (g : MutationGuards) (w : Bool) (info : FlatAccount)
    (a2 : LedgerAccount) : Except LedgerAccount LedgerAccount :=
  if a2.owner = info.owner then .ok a2
  else
    match g.setOwner w a2 info.owner with
    | some _ => .error a2
    | none => .ok { a2 with owner := info.owner }

/-- The pre-call forward copy for one account, `src/syscall_stubs.rs` lines
128-152: the lamports, data and owner clauses in that fixed order (the source
comment: change the owner at the end so that the lamports and data changes
are still permitted).  An `Except.error` is a panic carrying the partially
mutated account. -/
def forwardAccount (g : MutationGuards) (w : Bool) (info : FlatAccount)
    (a : LedgerAccount) : Except LedgerAccount LedgerAccount :=
  match cpiLamportsStep g w info a with
  | .error ap => .error ap
  | .ok a1 =>
    match cpiDataStep g w info a1 with
    | .error ap => .error ap
    | .ok a2 => cpiOwnerStep g w info a2

/-- The forward-copy loop of `src/syscall_stubs.rs` lines 111-156: for each
prepared instruction account, resolve its key, find the caller's flat-side
view with that key (`ok_or(MissingAccount).unwrap()`), borrow the caller
instruction account at `index_in_caller` and run `forwardAccount`; collect
`(index_in_caller, account_info_index)` for the writable ones.  An error is a
panic carrying the transaction accounts as mutated so far. -/
def forwardLoop (g : MutationGuards) (callerRefs : List InstrAccountRef)
    (infos : List FlatAccount) :
    List CpiAccountMeta → List LedgerAccount → List (Nat × Nat) →
    Except (List LedgerAccount) (List LedgerAccount × List (Nat × Nat))
  | [], tx, acc => .ok (tx, acc.reverse)
  | m :: rest, tx, acc =>
    match tx.get? m.indexInTransaction with
    | none => .error tx
    | some keyed =>
      match infos.findIdx? (fun info => info.key = keyed.key) with
      | none => .error tx
      | some infoIdx =>
        match infos.get? infoIdx with
        | none => .error tx
        | some info =>
          match callerRefs.get? m.indexInCaller with
          | none => .error tx
          | some r =>
            match tx.get? r.indexInTransaction with
            | none => .error tx
            | some a =>
              match forwardAccount g r.isWritable info a with
              | .error ap => .error (tx.set r.indexInTransaction ap)
              | .ok a1 =>
                forwardLoop g callerRefs infos rest
                  (tx.set r.indexInTransaction a1)
                  (if m.isWritable then (m.indexInCaller, infoIdx) :: acc
                   else acc)

/-- The post-call copy-back loop of `src/syscall_stubs.rs` lines 175-202: for
each collected pair, borrow the caller instruction account and write its
lamports, owner and (after a resize when the lengths differ) data into the
flat-side view at the recorded index.  A failed lookup is a panic carrying the
flat views as updated so far. -/
def copyBack (callerRefs : List InstrAccountRef) (tx : List LedgerAccount) :
    List (Nat × Nat) → List FlatAccount →
    Except (List FlatAccount) (List FlatAccount)
  | [], infos => .ok infos
  | (idxCaller, infoIdx) :: rest, infos =>
    match callerRefs.get? idxCaller with
    | none => .error infos
    | some r =>
      match tx.get? r.indexInTransaction with
      | none => .error infos
      | some a =>
        match infos.get? infoIdx with
        | none => .error infos
        | some info =>
          copyBack callerRefs tx rest
            (infos.set infoIdx
              { info with lamports := a.lamports, owner := a.owner,
                          data := a.data })

/-- The cross-program invocation syscall `sol_invoke_signed` of
`src/syscall_stubs.rs` lines 68-207.  Steps mirror the source: derive the
signer addresses (`create_program_address(..).unwrap()`, a failure panics),
resolve the instruction (`prepare_instruction(..).unwrap()`, a failure
panics), forward-copy the caller's flat-side views into the ledger accounts,
run the nested `process_instruction` (a failure is fed through
`convert_error`: a translatable error is returned as the CPI `Err`, an
untranslatable one panics), then copy the callee-visible writable accounts
back into the flat-side views.  Returns the outcome together with the final
ledger accounts and flat-side views. -/
def sol_invoke_signed (g : MutationGuards) (env : CpiEnv)
    (callerRefs : List InstrAccountRef) (infos : List FlatAccount)
    (tx : List LedgerAccount) :
    CpiOutcome × List LedgerAccount × List FlatAccount :=
  if env.derives.any (·.isNone) then (.panicked, tx, infos)
  else
    match env.prepareOutcome with
    | .error _ => (.panicked, tx, infos)
    | .ok metas =>
      match forwardLoop g callerRefs infos metas tx [] with
      | .error txp => (.panicked, txp, infos)
      | .ok (tx1, pairs) =>
        match env.processResult with
        | some e =>
          match convert_error e with
          | .ok p => (.err p, tx1, infos)
          | .error _ => (.panicked, tx1, infos)
        | none =>
          let tx2 := env.processEffect tx1
          match copyBack callerRefs tx2 pairs infos with
          | .error infosp => (.panicked, tx2, infosp)
          | .ok infos1 => (.ok, tx2, infos1)

/-- The transaction's return-data slot as held by the external transaction
context: a program id and a byte vector, last-writer-wins. -/
structure ReturnDataSlot where
  programId : Pubkey
  data : List Nat
deriving DecidableEq, Repr

/-- Modelled from the spec and the external transaction context's default
state: an unset return-data slot holds the default (all-zero) program id and
an empty byte vector. -/
def unsetReturnData : ReturnDataSlot := { programId := 0, data := [] }

/-- The `sol_get_return_data` syscall of `src/syscall_stubs.rs` lines 208-213:
reads the slot through `transaction_context.get_return_data()` and always
wraps the pair in `Some`. -/
def sol_get_return_data (slot : ReturnDataSlot) :
    Option (Pubkey × List Nat) :=
  some (slot.programId, slot.data)

/-- The `sol_set_return_data` syscall of `src/syscall_stubs.rs` lines 214-226:
overwrites the slot with the calling program's id and the given bytes. -/
def sol_set_return_data (caller : Pubkey) (data : List Nat)
    (_slot : ReturnDataSlot) : ReturnDataSlot :=
  { programId := caller, data := data }

/-- A fully permissive guard instance, used to instantiate theorems whose
truth does not depend on the guard verdicts. -/
def trivialGuards : MutationGuards where
  setLamports := fun _ _ _ => none
  canDataBeResized := fun _ _ _ => none
  canDataBeChanged := fun _ _ => none
  setOwner := fun _ _ _ => none

/-- The transaction accounts held after the commit loop, whether it completed
or aborted partway (`?` carries the partially committed state). -/
def commitResultTx :
    Except (InstructionError × List LedgerAccount) (List LedgerAccount) →
    List LedgerAccount
  | .ok tx => tx
  | .error (_, tx) => tx

theorem lamportsStep_ok (g : MutationGuards) (w : Bool) (info : FlatAccount)
    (a a1 : LedgerAccount) (h : lamportsStep g w info a = .ok a1) :
    a1 = lamportsApplied a info := by
  unfold lamportsStep at h
  unfold lamportsApplied
  by_cases hl : a.lamports = info.lamports
  · rw [if_pos hl] at h
    rw [if_pos hl]
    exact (Except.ok.inj h).symm
  · rw [if_neg hl] at h
    rw [if_neg hl]
    cases hgl : g.setLamports w a info.lamports with
    | some e => rw [hgl] at h; cases h
    | none => rw [hgl] at h; exact (Except.ok.inj h).symm

theorem lamportsApplied_key (a : LedgerAccount) (info : FlatAccount) :
    (lamportsApplied a info).key = a.key := by
  unfold lamportsApplied; split <;> rfl

theorem lamportsApplied_lamports (a : LedgerAccount) (info : FlatAccount) :
    (lamportsApplied a info).lamports = info.lamports := by
  unfold lamportsApplied
  by_cases hl : a.lamports = info.lamports
  · rw [if_pos hl]; exact hl
  · rw [if_neg hl]

theorem lamportsApplied_data (a : LedgerAccount) (info : FlatAccount) :
    (lamportsApplied a info).data = a.data := by
  unfold lamportsApplied; split <;> rfl

theorem lamportsApplied_owner (a : LedgerAccount) (info : FlatAccount) :
    (lamportsApplied a info).owner = a.owner := by
  unfold lamportsApplied; split <;> rfl

theorem dataStep_key (g : MutationGuards) (w : Bool) (info : FlatAccount)
    (a1 : LedgerAccount) : (dataStep g w info a1).key = a1.key := by
  unfold dataStep; split <;> rfl

theorem dataStep_lamports (g : MutationGuards) (w : Bool) (info : FlatAccount)
    (a1 : LedgerAccount) : (dataStep g w info a1).lamports = a1.lamports := by
  unfold dataStep; split <;> rfl

theorem dataStep_owner (g : MutationGuards) (w : Bool) (info : FlatAccount)
    (a1 : LedgerAccount) : (dataStep g w info a1).owner = a1.owner := by
  unfold dataStep; split <;> rfl

theorem dataStep_data (g : MutationGuards) (w : Bool) (info : FlatAccount)
    (a1 : LedgerAccount) :
    (dataStep g w info a1).data
      = if dataGuardPass g w a1 info.data.length then info.data
        else a1.data := by
  unfold dataStep
  by_cases hd : dataGuardPass g w a1 info.data.length = true
  · rw [if_pos hd, if_pos hd]
  · rw [if_neg hd, if_neg hd]

theorem ownerStep_ok (g : MutationGuards) (w : Bool) (info : FlatAccount)
    (a2 a3 : LedgerAccount) (h : ownerStep g w info a2 = .ok a3) :
    a3.owner = info.owner ∧ a3.key = a2.key ∧ a3.lamports = a2.lamports ∧
      a3.data = a2.data := by
  unfold ownerStep at h
  by_cases ho : a2.owner = info.owner
  · rw [if_pos ho] at h
    have := (Except.ok.inj h).symm
    subst this
    exact ⟨ho, rfl, rfl, rfl⟩
  · rw [if_neg ho] at h
    cases hgo : g.setOwner w a2 info.owner with
    | some e => rw [hgo] at h; cases h
    | none =>
      rw [hgo] at h
      have := (Except.ok.inj h).symm
      subst this
      exact ⟨rfl, rfl, rfl, rfl⟩

theorem commitAccount_skip (g : MutationGuards)
    (fm : Pubkey → Option FlatAccount) (r : InstrAccountRef)
    (a : LedgerAccount)
    (h : r.isWritable = false ∨ fm a.key = none) :
    commitAccount g fm r a = .ok a := by
  rcases h with h | h
  · unfold commitAccount
    rw [h]
    rfl
  · cases hwv : r.isWritable with
    | false =>
      unfold commitAccount
      rw [hwv]
      rfl
    | true =>
      unfold commitAccount
      rw [hwv, if_pos rfl, h]

theorem commitAccount_ok_spec (g : MutationGuards)
    (fm : Pubkey → Option FlatAccount) (r : InstrAccountRef)
    (a a2 : LedgerAccount) (info : FlatAccount)
    (hw : r.isWritable = true) (hm : fm a.key = some info)
    (hres : commitAccount g fm r a = .ok a2) :
    a2.key = a.key ∧ a2.lamports = info.lamports ∧ a2.owner = info.owner ∧
      a2.data = (if dataGuardPass g r.isWritable (lamportsApplied a info)
          info.data.length then info.data else a.data) := by
  unfold commitAccount at hres
  rw [hw] at hres
  rw [if_pos rfl, hm] at hres
  dsimp only at hres
  cases hls : lamportsStep g true info a with
  | error ep => rw [hls] at hres; cases hres
  | ok a1 =>
    rw [hls] at hres
    dsimp only at hres
    have ha1 : a1 = lamportsApplied a info := lamportsStep_ok g true info a a1 hls
    subst ha1
    obtain ⟨ho, hk, hlm, hd⟩ := ownerStep_ok g true info _ a2 hres
    rw [hw]
    refine ⟨?_, ?_, ho, ?_⟩
    · rw [hk, dataStep_key, lamportsApplied_key]
    · rw [hlm, dataStep_lamports, lamportsApplied_lamports]
    · rw [hd, dataStep_data, lamportsApplied_data]

theorem commitLoop_preserve (g : MutationGuards)
    (fm : Pubkey → Option FlatAccount) (refs : List InstrAccountRef)
    (idxs : List Nat) (tx : List LedgerAccount) (t : Nat) (a : LedgerAccount)
    (ha : tx.get? t = some a)
    (hskip : ∀ i r, refs.get? i = some r → r.indexInTransaction = t →
      r.isWritable = false ∨ fm a.key = none) :
    (commitResultTx (commitLoop g fm refs idxs tx)).get? t = some a := by
  induction idxs generalizing tx with
  | nil => exact ha
  | cons i rest ih =>
    unfold commitLoop
    cases h1 : refs.get? i with
    | none =>
      dsimp only [commitResultTx]
      exact ha
    | some r =>
      dsimp only
      cases h2 : tx.get? r.indexInTransaction with
      | none =>
        dsimp only [commitResultTx]
        exact ha
      | some b =>
        dsimp only
        have hlt : r.indexInTransaction < tx.length := by
          by_contra hc
          rw [List.get?_eq_none.mpr (Nat.le_of_not_lt hc)] at h2
          cases h2
        by_cases ht : r.indexInTransaction = t
        · subst ht
          have hb : b = a := by
            rw [ha] at h2; exact (Option.some.inj h2).symm
          subst hb
          have hcommit : commitAccount g fm r b = .ok b :=
            commitAccount_skip g fm r b (hskip i r h1 rfl)
          rw [hcommit]
          dsimp only
          have hset : (tx.set r.indexInTransaction b).get? r.indexInTransaction
              = some b := List.get?_set_eq_of_lt b hlt
          exact ih _ hset
        · cases h3 : commitAccount g fm r b with
          | error ep =>
            obtain ⟨e, bp⟩ := ep
            dsimp only [commitResultTx]
            rw [List.get?_set_ne _ _ ht]
            exact ha
          | ok b1 =>
            dsimp only
            have hset : (tx.set r.indexInTransaction b1).get? t = some a := by
              rw [List.get?_set_ne _ _ ht]; exact ha
            exact ih _ hset

/-- C6: claims every untranslatable internal instruction-error code maps to
itself, but `convert_error` maps `ExternalAccountLamportSpend` to the
different code `ExecutableLamportChange` (`src/syscall_stubs.rs` lines
269-271), unlike every sibling arm. -/
theorem c6_external_lamport_spend_not_preserved :
    convert_error .ExternalAccountLamportSpend
        = .error .ExecutableLamportChange ∧
      InstructionError.ExecutableLamportChange
        ≠ InstructionError.ExternalAccountLamportSpend :=
  ⟨rfl, fun h => InstructionError.noConfusion h⟩

/-- C7: the error translation is total over the internal enumeration — every
code yields either a program-facing translation or an explicit
propagate-as-internal outcome — and the payloads of `Custom` and
`BorshIoError` are preserved exactly. -/
theorem c7_convert_error_total_and_payload_preserving :
    (∀ e : InstructionError,
        (∃ p, convert_error e = .ok p) ∨ (∃ e2, convert_error e = .error e2))
      ∧ (∀ n : Nat, convert_error (.Custom n) = .ok (.Custom n))
      ∧ (∀ s : String,
          convert_error (.BorshIoError s) = .ok (.BorshIoError s)) := by
  refine ⟨fun e => ?_, fun n => rfl, fun s => rfl⟩
  cases e <;> first
    | exact Or.inl ⟨_, rfl⟩
    | exact Or.inr ⟨_, rfl⟩

/-- C10: `sol_get_return_data` never returns `None`: every slot state yields
`Some` pair, the unset slot yields the default program id with the empty
vector, and a slot explicitly set to empty data by the default program id is
indistinguishable from the unset slot. -/
theorem c10_get_return_data_never_none :
    (∀ slot : ReturnDataSlot,
        ∃ pid data, sol_get_return_data slot = some (pid, data))
      ∧ sol_get_return_data unsetReturnData = some (0, [])
      ∧ ∀ slot : ReturnDataSlot,
          sol_get_return_data (sol_set_return_data 0 [] slot)
            = sol_get_return_data unsetReturnData :=
  ⟨fun slot => ⟨slot.programId, slot.data, rfl⟩, rfl, fun _ => rfl⟩

/-- C3: a program panic is converted by the `catch_unwind` boundary into the
error `ProgramFailedToComplete`; on a panic or a program-reported failure
code, a `program_failure` log entry naming the program id is emitted and the
ledger-side accounts are left untouched (reconciliation runs only on
success). -/
theorem c3_panic_boundary_and_failure_logging (g : MutationGuards)
    (postViews : List FlatAccount) (st : InvokeState)
    (hb : 1 ≤ st.budget) :
    ((invoke_builtin_function g .panicked postViews st).1
        = .error (.instrError .ProgramFailedToComplete)
      ∧ LogEntry.programFailure st.programId
          ∈ (invoke_builtin_function g .panicked postViews st).2.1
      ∧ ((invoke_builtin_function g .panicked postViews st).2.2).tx = st.tx)
    ∧ ∀ code : Nat,
        LogEntry.programFailure st.programId
          ∈ (invoke_builtin_function g (.failure code) postViews st).2.1
        ∧ ((invoke_builtin_function g (.failure code) postViews st).2.2).tx
            = st.tx := by
  have hlt : ¬ st.budget < 1 := Nat.not_lt.mpr hb
  refine ⟨⟨?_, ?_, ?_⟩, fun code => ⟨?_, ?_⟩⟩
  · unfold invoke_builtin_function
    rw [if_neg hlt]
  · unfold invoke_builtin_function
    rw [if_neg hlt]
    exact List.Mem.tail _ (List.Mem.head _)
  · unfold invoke_builtin_function
    rw [if_neg hlt]
  · unfold invoke_builtin_function
    rw [if_neg hlt]
    exact List.Mem.tail _ (List.Mem.head _)
  · unfold invoke_builtin_function
    rw [if_neg hlt]

/-- Witness for `c3_panic_boundary_and_failure_logging` at a concrete
invocation state. -/
theorem c3_witness :
    (invoke_builtin_function trivialGuards .panicked []
        ⟨1, [], [], 7, 1⟩).1
      = .error (.instrError .ProgramFailedToComplete) :=
  (c3_panic_boundary_and_failure_logging trivialGuards [] ⟨1, [], [], 7, 1⟩
    (by decide)).1.1

/-- C9: every invocation charges the fixed unit cost before running the
program function — with an empty budget the invocation fails with the
budget-exceeded error before the invocation log or the program run — and the
budget only ever decreases (by exactly the unit charge when it sufficed). -/
theorem c9_unit_budget (g : MutationGuards) (prog : ProgOutcome)
    (postViews : List FlatAccount) (st : InvokeState) :
    (st.budget = 0 →
        invoke_builtin_function g prog postViews st
          = (.error (.instrError .ComputationalBudgetExceeded), [], st))
      ∧ (1 ≤ st.budget →
          ((invoke_builtin_function g prog postViews st).2.2).budget
            = st.budget - 1)
      ∧ ((invoke_builtin_function g prog postViews st).2.2).budget
          ≤ st.budget := by
  refine ⟨fun h0 => ?_, fun h1 => ?_, ?_⟩
  · have hlt : st.budget < 1 := by omega
    unfold invoke_builtin_function
    rw [if_pos hlt]
  · have hlt : ¬ st.budget < 1 := Nat.not_lt.mpr h1
    unfold invoke_builtin_function
    rw [if_neg hlt]
    cases prog with
    | panicked => rfl
    | failure code => rfl
    | success =>
      dsimp only
      cases hc : commitLoop g (account_info_map postViews) st.refs
          (deduplicated_indices st.refs.length) st.tx with
      | error ep =>
        obtain ⟨e, txp⟩ := ep
        rfl
      | ok txf => rfl
  · by_cases h0 : st.budget < 1
    · unfold invoke_builtin_function
      rw [if_pos h0]
    · unfold invoke_builtin_function
      rw [if_neg h0]
      cases prog with
      | panicked => exact Nat.sub_le _ _
      | failure code => exact Nat.sub_le _ _
      | success =>
        dsimp only
        cases hc : commitLoop g (account_info_map postViews) st.refs
            (deduplicated_indices st.refs.length) st.tx with
        | error ep =>
          obtain ⟨e, txp⟩ := ep
          exact Nat.sub_le _ _
        | ok txf => exact Nat.sub_le _ _

/-- C1: claims that after a successful program return every writable account
with a matching flat-side view ends with ledger-side lamports, data and owner
equal to the flat-side values; refuted: for a writable account owned by
another program (so the data-mutation guard denies), with differing data and
agreeing lamports and owner, the invocation succeeds and the ledger data
keeps its prior value, unequal to the flat-side data. -/
theorem c1_counterexample :
    (invoke_builtin_function (specGuards 5 100) .success [⟨1, 10, [2], 9⟩]
        ⟨1, [⟨1, 10, [1], 9⟩], [⟨0, true⟩], 5, 1⟩).1 = .ok 0
      ∧ ((invoke_builtin_function (specGuards 5 100) .success [⟨1, 10, [2], 9⟩]
          ⟨1, [⟨1, 10, [1], 9⟩], [⟨0, true⟩], 5, 1⟩).2.2).tx
        = [⟨1, 10, [1], 9⟩]
      ∧ (⟨0, true⟩ : InstrAccountRef).isWritable = true
      ∧ account_info_map [⟨1, 10, [2], 9⟩] 1 = some ⟨1, 10, [2], 9⟩
      ∧ ([1] : List Nat) ≠ [2] :=
  ⟨rfl, rfl, rfl, rfl, by decide⟩

/-- C1 (amended): for each commit of a writable account with a matching
flat-side view that completes without error, the ledger-side lamports and
owner equal the flat-side values, and the data equals the flat-side bytes
exactly when the ledger guards permitted the resize and the change — the
guard verdict being taken after the lamports copy and before the owner copy,
witnessing the fixed lamports-data-owner order; when the guard denied, the
data keeps its prior value. -/
theorem c1_amended (g : MutationGuards) (fm : Pubkey → Option FlatAccount)
    (r : InstrAccountRef) (a a2 : LedgerAccount) (info : FlatAccount)
    (hw : r.isWritable = true) (hm : fm a.key = some info)
    (hres : commitAccount g fm r a = .ok a2) :
    a2.lamports = info.lamports ∧ a2.owner = info.owner
      ∧ (dataGuardPass g r.isWritable (lamportsApplied a info)
            info.data.length = true → a2.data = info.data)
      ∧ (dataGuardPass g r.isWritable (lamportsApplied a info)
            info.data.length = false → a2.data = a.data) := by
  obtain ⟨hk, hl, ho, hd⟩ := commitAccount_ok_spec g fm r a a2 info hw hm hres
  refine ⟨hl, ho, fun hp => ?_, fun hn => ?_⟩
  · rw [hd, if_pos hp]
  · rw [hd, if_neg ?_]
    rw [hn]
    exact Bool.false_ne_true

/-- Witness for `c1_amended` at a concrete commit. -/
theorem c1_witness :
    (⟨1, 6, [3], 4⟩ : LedgerAccount).lamports
      = (⟨1, 6, [3], 4⟩ : FlatAccount).lamports :=
  (c1_amended trivialGuards (account_info_map [⟨1, 6, [3], 4⟩]) ⟨0, true⟩
    ⟨1, 5, [1], 2⟩ ⟨1, 6, [3], 4⟩ ⟨1, 6, [3], 4⟩ rfl rfl rfl).1

/-- C2: for every account slot all of whose instruction references are
non-writable, and for every slot whose key matches no flat-side view, the
ledger-side state after one invocation equals its state before, whatever the
program function left in the flat-side views and however the invocation
ended. -/
theorem c2_nonwritable_unmatched_frame (g : MutationGuards)
    (prog : ProgOutcome) (postViews : List FlatAccount) (st : InvokeState)
    (t : Nat) (a : LedgerAccount)
    (ha : st.tx.get? t = some a)
    (hskip : ∀ i r, st.refs.get? i = some r → r.indexInTransaction = t →
      r.isWritable = false ∨ account_info_map postViews a.key = none) :
    ((invoke_builtin_function g prog postViews st).2.2).tx.get? t = some a := by
  unfold invoke_builtin_function
  by_cases hb : st.budget < 1
  · rw [if_pos hb]; exact ha
  · rw [if_neg hb]
    cases prog with
    | panicked => exact ha
    | failure code => exact ha
    | success =>
      dsimp only
      have hpres := commitLoop_preserve g (account_info_map postViews) st.refs
        (deduplicated_indices st.refs.length) st.tx t a ha hskip
      cases hc : commitLoop g (account_info_map postViews) st.refs
          (deduplicated_indices st.refs.length) st.tx with
      | error ep =>
        obtain ⟨e, txp⟩ := ep
        rw [hc] at hpres
        dsimp only [commitResultTx] at hpres
        exact hpres
      | ok txf =>
        rw [hc] at hpres
        dsimp only [commitResultTx] at hpres
        exact hpres

/-- Witness for `c2_nonwritable_unmatched_frame`: a non-writable account
survives an invocation whose flat-side view was mutated arbitrarily. -/
theorem c2_witness :
    ((invoke_builtin_function (specGuards 5 100) .success [⟨1, 99, [9], 3⟩]
        ⟨1, [⟨1, 5, [1], 2⟩], [⟨0, false⟩], 5, 1⟩).2.2).tx.get? 0
      = some ⟨1, 5, [1], 2⟩ :=
  c2_nonwritable_unmatched_frame (specGuards 5 100) .success [⟨1, 99, [9], 3⟩]
    ⟨1, [⟨1, 5, [1], 2⟩], [⟨0, false⟩], 5, 1⟩ 0 ⟨1, 5, [1], 2⟩ rfl
    (by
      intro i r h1 h2
      cases i with
      | zero =>
        cases Option.some.inj h1
        exact Or.inl rfl
      | succ n => exact absurd h1 (by simp))

/-- C4: claims every failure inside `sol_invoke_signed` is translated and
returned as the CPI `Err` result, an unauthorized signer seed in particular
yielding a signature error result; refuted: with `prepare_instruction`
rejecting the signer with `MissingRequiredSignature`, the call panics
(`unwrap`) instead of returning an error result (the callee-side state is
indeed untouched). -/
theorem c4_counterexample :
    sol_invoke_signed trivialGuards
        ⟨[some 1], .error .MissingRequiredSignature, none, id⟩ [] [] []
      = (.panicked, [], [])
    ∧ (⟨[some 1], .error .MissingRequiredSignature, none, id⟩ :
        CpiEnv).prepareOutcome = .error .MissingRequiredSignature :=
  ⟨rfl, rfl⟩

/-- C4 (amended): a failure of the nested `process_instruction` call that has
a program-facing translation is returned as the CPI `Err` result (unless an
earlier step already panicked); every other failure — signer derivation,
instruction resolution, or an untranslatable nested-call error — panics
instead, and the derivation and resolution panics happen before any
callee-side account mutation (ledger and flat views are returned
unchanged). -/
theorem c4_amended (g : MutationGuards) (env : CpiEnv)
    (callerRefs : List InstrAccountRef) (infos : List FlatAccount)
    (tx : List LedgerAccount) :
    (env.derives.any (·.isNone) = true →
        sol_invoke_signed g env callerRefs infos tx = (.panicked, tx, infos))
      ∧ (∀ e, env.prepareOutcome = .error e →
          sol_invoke_signed g env callerRefs infos tx = (.panicked, tx, infos))
      ∧ (∀ e p, env.processResult = some e → convert_error e = .ok p →
          (sol_invoke_signed g env callerRefs infos tx).1 = .err p
            ∨ (sol_invoke_signed g env callerRefs infos tx).1 = .panicked)
      ∧ (∀ e e2, env.processResult = some e → convert_error e = .error e2 →
          (sol_invoke_signed g env callerRefs infos tx).1 = .panicked) := by
  refine ⟨fun hd => ?_, fun e he => ?_, fun e p he hc => ?_,
    fun e e2 he hc => ?_⟩
  · unfold sol_invoke_signed
    rw [if_pos hd]
  · unfold sol_invoke_signed
    by_cases hd : env.derives.any (·.isNone) = true
    · rw [if_pos hd]
    · rw [if_neg hd, he]
  · unfold sol_invoke_signed
    by_cases hd : env.derives.any (·.isNone) = true
    · rw [if_pos hd]; exact Or.inr rfl
    · rw [if_neg hd]
      cases hp : env.prepareOutcome with
      | error e3 => exact Or.inr rfl
      | ok metas =>
        dsimp only
        cases hf : forwardLoop g callerRefs infos metas tx [] with
        | error txp => exact Or.inr rfl
        | ok pr =>
          obtain ⟨tx1, pairs⟩ := pr
          dsimp only
          rw [he]
          dsimp only
          rw [hc]
          exact Or.inl rfl
  · unfold sol_invoke_signed
    by_cases hd : env.derives.any (·.isNone) = true
    · rw [if_pos hd]
    · rw [if_neg hd]
      cases hp : env.prepareOutcome with
      | error e3 => rfl
      | ok metas =>
        dsimp only
        cases hf : forwardLoop g callerRefs infos metas tx [] with
        | error txp => rfl
        | ok pr =>
          obtain ⟨tx1, pairs⟩ := pr
          dsimp only
          rw [he]
          dsimp only
          rw [hc]

/-- Witness for `c4_amended`: a translatable nested-call failure comes back
as the CPI error result. -/
theorem c4_witness :
    (sol_invoke_signed trivialGuards ⟨[], .ok [], some (.Custom 3), id⟩
        [] [] []).1 = .err (.Custom 3)
      ∨ (sol_invoke_signed trivialGuards ⟨[], .ok [], some (.Custom 3), id⟩
        [] [] []).1 = .panicked :=
  (c4_amended trivialGuards ⟨[], .ok [], some (.Custom 3), id⟩ [] [] []).2.2.1
    (.Custom 3) (.Custom 3) rfl rfl

/-- C5: claims a denied data mutation with differing data is always surfaced
and never silently dropped; refuted on the post-call reconciliation path: for
a writable account owned by another program with differing data, the data
guard denies, the invocation succeeds with no error, and the flat-side data is
silently not committed. -/
theorem c5_counterexample :
    (invoke_builtin_function (specGuards 3 50) .success [⟨2, 20, [5, 5], 7⟩]
        ⟨1, [⟨2, 20, [4, 4], 7⟩], [⟨0, true⟩], 3, 1⟩).1 = .ok 0
      ∧ ((invoke_builtin_function (specGuards 3 50) .success [⟨2, 20, [5, 5], 7⟩]
          ⟨1, [⟨2, 20, [4, 4], 7⟩], [⟨0, true⟩], 3, 1⟩).2.2).tx
        = [⟨2, 20, [4, 4], 7⟩]
      ∧ (specGuards 3 50).canDataBeChanged true ⟨2, 20, [4, 4], 7⟩
          = some .ExternalAccountDataModified
      ∧ ([4, 4] : List Nat) ≠ [5, 5] :=
  ⟨rfl, rfl, rfl, by decide⟩

/-- C5 (amended): in the CPI forward-copy path a denied data mutation with
differing data panics carrying the guard's error, and a denied mutation whose
data already agree is ignored without error; in the post-call reconciliation
path a denied data mutation is skipped silently, leaving the prior data, even
when the flat-side data differ. -/
theorem c5_amended :
    (∀ (g : MutationGuards) (w : Bool) (info : FlatAccount)
        (a1 : LedgerAccount),
        dataGuardPass g w a1 info.data.length = false →
        a1.data ≠ info.data →
        cpiDataStep g w info a1 = .error a1)
      ∧ (∀ (g : MutationGuards) (w : Bool) (info : FlatAccount)
          (a1 : LedgerAccount),
          dataGuardPass g w a1 info.data.length = false →
          a1.data = info.data →
          cpiDataStep g w info a1 = .ok a1)
      ∧ (∀ (g : MutationGuards) (fm : Pubkey → Option FlatAccount)
          (r : InstrAccountRef) (a a2 : LedgerAccount) (info : FlatAccount),
          r.isWritable = true → fm a.key = some info →
          commitAccount g fm r a = .ok a2 →
          dataGuardPass g r.isWritable (lamportsApplied a info)
            info.data.length = false →
          a2.data = a.data) := by
  refine ⟨fun g w info a1 hfalse hne => ?_, fun g w info a1 hfalse heq => ?_,
    fun g fm r a a2 info hw hm hres hfalse => ?_⟩
  · unfold cpiDataStep
    cases hcr : g.canDataBeResized w a1 info.data.length with
    | some e =>
      dsimp only
      rw [if_neg hne]
    | none =>
      dsimp only
      cases hcc : g.canDataBeChanged w a1 with
      | some e =>
        dsimp only
        rw [if_neg hne]
      | none =>
        exfalso
        unfold dataGuardPass at hfalse
        rw [hcr, hcc] at hfalse
        simp at hfalse
  · unfold cpiDataStep
    cases hcr : g.canDataBeResized w a1 info.data.length with
    | some e =>
      dsimp only
      rw [if_pos heq]
    | none =>
      dsimp only
      cases hcc : g.canDataBeChanged w a1 with
      | some e =>
        dsimp only
        rw [if_pos heq]
      | none =>
        exfalso
        unfold dataGuardPass at hfalse
        rw [hcr, hcc] at hfalse
        simp at hfalse
  · obtain ⟨hk, hl, ho, hd⟩ := commitAccount_ok_spec g fm r a a2 info hw hm hres
    rw [hd, if_neg ?_]
    rw [hfalse]
    exact Bool.false_ne_true

/-- Witness for `c5_amended` at concrete denials and a concrete commit. -/
theorem c5_witness :
    cpiDataStep (specGuards 5 100) true ⟨1, 10, [2], 9⟩ ⟨1, 10, [1], 9⟩
        = .error ⟨1, 10, [1], 9⟩
      ∧ cpiDataStep (specGuards 5 100) true ⟨1, 10, [2], 9⟩ ⟨1, 10, [2], 9⟩
        = .ok ⟨1, 10, [2], 9⟩
      ∧ (⟨2, 20, [4, 4], 7⟩ : LedgerAccount).data
        = (⟨2, 20, [4, 4], 7⟩ : LedgerAccount).data :=
  ⟨c5_amended.1 (specGuards 5 100) true ⟨1, 10, [2], 9⟩ ⟨1, 10, [1], 9⟩
      (by decide) (by decide),
   c5_amended.2.1 (specGuards 5 100) true ⟨1, 10, [2], 9⟩ ⟨1, 10, [2], 9⟩
      (by decide) rfl,
   c5_amended.2.2 (specGuards 3 50) (account_info_map [⟨2, 20, [5, 5], 7⟩])
      ⟨0, true⟩ ⟨2, 20, [4, 4], 7⟩ ⟨2, 20, [4, 4], 7⟩ ⟨2, 20, [5, 5], 7⟩
      rfl rfl rfl (by decide)⟩

/-- C8: claims a ledger-side slot referenced at more than one
instruction-account index is processed exactly once by reconciliation;
refuted: the deduplicated set holds the instruction-account indices `0..n`,
which never contain duplicates, so two indices referencing slot 0 make the
loop borrow and commit slot 0 twice. -/
theorem c8_counterexample :
    deduplicated_indices 2 = [0, 1]
      ∧ processedSlots [⟨0, true⟩, ⟨0, true⟩] (deduplicated_indices 2)
        = [0, 0]
      ∧ (processedSlots [⟨0, true⟩, ⟨0, true⟩]
          (deduplicated_indices 2)).count 0 = 2 :=
  ⟨by decide, by decide, by decide⟩

/-- C8 (amended): a duplicated slot is processed once per referencing index,
but recommitting an already successfully committed account from the same
flat-side view is the identity (given that the data-guard verdict on the
committed state does not newly permit a copy the first pass denied, as with
the ledger's ownership-based guards), so the resulting ledger state equals
that of a single reference. -/
theorem c8_amended (g : MutationGuards) (fm : Pubkey → Option FlatAccount)
    (r : InstrAccountRef) (a a2 : LedgerAccount) (info : FlatAccount)
    (hw : r.isWritable = true) (hm : fm a.key = some info)
    (hres : commitAccount g fm r a = .ok a2)
    (hstab : dataGuardPass g r.isWritable a2 info.data.length = true →
      a2.data = info.data) :
    commitAccount g fm r a2 = .ok a2 := by
  obtain ⟨hk, hl, ho, hd⟩ := commitAccount_ok_spec g fm r a a2 info hw hm hres
  rw [hw] at hstab
  unfold commitAccount
  rw [hw]
  rw [if_pos rfl, hk, hm]
  dsimp only
  have hls : lamportsStep g true info a2 = .ok a2 := by
    unfold lamportsStep
    rw [if_pos hl]
  rw [hls]
  dsimp only
  have hds : dataStep g true info a2 = a2 := by
    unfold dataStep
    by_cases hp : dataGuardPass g true a2 info.data.length = true
    · rw [if_pos hp]
      have hde : a2.data = info.data := hstab hp
      rw [← hde]
    · rw [if_neg hp]
  rw [hds]
  unfold ownerStep
  rw [if_pos ho]

/-- Witness for `c8_amended`: recommitting a concrete committed account is
the identity. -/
theorem c8_witness :
    commitAccount trivialGuards (account_info_map [⟨1, 6, [3], 4⟩]) ⟨0, true⟩
        ⟨1, 6, [3], 4⟩ = .ok ⟨1, 6, [3], 4⟩ :=
  c8_amended trivialGuards (account_info_map [⟨1, 6, [3], 4⟩]) ⟨0, true⟩
    ⟨1, 5, [1], 2⟩ ⟨1, 6, [3], 4⟩ ⟨1, 6, [3], 4⟩ rfl rfl rfl (fun _ => rfl)

/-- Witness for `c9_unit_budget` at a concrete empty-budget state. -/
theorem c9_witness :
    invoke_builtin_function trivialGuards .success [] ⟨0, [], [], 7, 1⟩
      = (.error (.instrError .ComputationalBudgetExceeded), [],
         ⟨0, [], [], 7, 1⟩) :=
  (c9_unit_budget trivialGuards .success [] ⟨0, [], [], 7, 1⟩).1 rfl

end Trident
